import Mathlib

/-!
Verification development for the snowflake-connector repository: a shallow
embedding of the query lifecycle and typed-result decoding engine, with
theorems settling the specification's claims against the code.
-/

namespace Snowflake

/-! ### Decimal numeral formatting and parsing

Models Rust's integer `Display` (decimal representation) and `FromStr`
(sign, decimal digits, range check), used by `BindingValue::to_string` in
`snowflake-deserializer/src/bindings.rs` and by the `impl_deserialize_from_str`
decoders in `snowflake-deserializer/src/lib.rs`. -/

/-- Errors of Rust's integer `FromStr` (`std::num::ParseIntError` kinds). -/
inductive IntParseError where
  | empty
  | invalidDigit
  | posOverflow
  | negOverflow
  deriving DecidableEq, Repr

/-- Decimal digits, least-significant first, with explicit recursion fuel
(the shape of core's `Nat.toDigitsCore`); the fuel is never exhausted when
it is at least the input. -/
def natToDigitsLEAux : Nat → Nat → List Nat
  | 0, n => [n]
  | fuel + 1, n => if n < 10 then [n] else (n % 10) :: natToDigitsLEAux fuel (n / 10)

/-- Decimal digits of a natural number, least-significant first. -/
def natToDigitsLE (n : Nat) : List Nat :=
  natToDigitsLEAux n n

/-- Character for a decimal digit value. -/
def digitChar (d : Nat) : Char := Char.ofNat (48 + d)

/-- Rust's `Display` for unsigned integers: most-significant-first decimal digits. -/
def natToString (n : Nat) : String := ⟨((natToDigitsLE n).map digitChar).reverse⟩

/-- Rust's `Display` for signed integers: optional minus sign, then digits. -/
def intToString (v : Int) : String :=
  if v < 0 then ⟨'-' :: (natToString v.natAbs).data⟩ else natToString v.natAbs

/-- Numeric value of a most-significant-first decimal digit string
(the fold Rust's `from_str_radix` performs, with overflow checked separately). -/
def charsToNat (cs : List Char) : Nat :=
  cs.foldl (fun acc c => acc * 10 + (c.toNat - 48)) 0

/-- Parses a nonempty all-digit character list; anything else is `InvalidDigit`. -/
def parseNatDigits (cs : List Char) : Except IntParseError Nat :=
  if cs.isEmpty then .error .invalidDigit
  else if cs.all Char.isDigit then .ok (charsToNat cs) else .error .invalidDigit

/-- Rust `FromStr` for unsigned integers before the range check:
an optional leading plus sign, then decimal digits. -/
def parseUnsignedChars (cs : List Char) : Except IntParseError Nat :=
  match cs with
  | [] => .error .empty
  | c :: rest => if c = '+' then parseNatDigits rest else parseNatDigits (c :: rest)

/-- Rust `FromStr` for signed integers before the range check:
an optional leading sign, then decimal digits. -/
def parseIntChars (cs : List Char) : Except IntParseError Int :=
  match cs with
  | [] => .error .empty
  | c :: rest =>
    if c = '-' then (parseNatDigits rest).map (fun n => -(Int.ofNat n))
    else if c = '+' then (parseNatDigits rest).map Int.ofNat
    else (parseNatDigits (c :: rest)).map Int.ofNat

/-- Overflow check Rust's checked per-digit arithmetic amounts to for signed widths. -/
def rangeCheckSigned (lo hi v : Int) : Except IntParseError Int :=
  if v < lo then .error .negOverflow
  else if hi < v then .error .posOverflow else .ok v

/-- Overflow check Rust's checked per-digit arithmetic amounts to for unsigned widths. -/
def rangeCheckUnsigned (hi v : Nat) : Except IntParseError Nat :=
  if hi < v then .error .posOverflow else .ok v

/-- Rust `FromStr` for a signed integer width with bounds `lo`/`hi`. -/
def parseSignedRange (lo hi : Int) (s : String) : Except IntParseError Int :=
  (parseIntChars s.data).bind (rangeCheckSigned lo hi)

/-- Rust `FromStr` for an unsigned integer width with upper bound `hi`. -/
def parseUnsignedRange (hi : Nat) (s : String) : Except IntParseError Nat :=
  (parseUnsignedChars s.data).bind (rangeCheckUnsigned hi)

/-- Value of a least-significant-first digit list. -/
def valLE : List Nat → Nat
  | [] => 0
  | d :: ds => d + 10 * valLE ds

/-- Signed 64-bit minimum, the `lo` bound of Rust's `i64::from_str`. -/
def i64MinVal : Int := -9223372036854775808

/-- Signed 64-bit maximum, the `hi` bound of Rust's `i64::from_str`. -/
def i64MaxVal : Int := 9223372036854775807

/-- Unsigned 64-bit maximum, the `hi` bound of Rust's `u64::from_str`. -/
def u64MaxVal : Nat := 18446744073709551615

/-- Error of Rust's `bool::from_str` (`std::str::ParseBoolError`). -/
inductive BoolParseError where
  | invalid
  deriving DecidableEq, Repr

/-- Rust's `Display` for `bool`, the encoding `BindingValue::Bool` sends. -/
def boolToString (b : Bool) : String := if b then "true" else "false"

/-- Rust's `FromStr` for `bool`: only the exact strings "true" and "false" parse. -/
def parseBoolStr (s : String) : Except BoolParseError Bool :=
  if s = "true" then .ok true else if s = "false" then .ok false else .error .invalid

/-- Error type of conversions that cannot fail (Rust's `Infallible`). -/
inductive NoError deriving DecidableEq, Repr

/-- Rust's `String::from_str`, the `DeserializeFromStr` instance for `String`
in `snowflake-deserializer/src/lib.rs`: the identity conversion. -/
def stringFromStr (s : String) : Except NoError String := .ok s

/-! ### Calendar model

Models the `chrono` values `BindingValue` carries and the temporal
encodings of `impl ToString for BindingValue`
(`snowflake-deserializer/src/bindings.rs` lines 105-107), plus the
`chrono`-format decoders of `snowflake-deserializer/src/lib.rs`. -/

/-- Model of `chrono::NaiveDate`: a proleptic Gregorian calendar date. -/
structure NaiveDate where
  year : Int
  month : Nat
  day : Nat
  deriving DecidableEq, Repr

/-- Model of `chrono::NaiveTime`: a time of day with nanosecond precision. -/
structure NaiveTime where
  hour : Nat
  minute : Nat
  second : Nat
  nano : Nat
  deriving DecidableEq, Repr

/-- Model of `chrono::NaiveDateTime`: a date paired with a time of day. -/
structure NaiveDateTime where
  date : NaiveDate
  time : NaiveTime
  deriving DecidableEq, Repr

/-- Days from the civil epoch 1970-01-01 of a proleptic Gregorian date
(standard days-from-civil algorithm; divisions only meet nonnegative
operands after the era shift, matching C++/chrono semantics). -/
def daysFromCivil (dt : NaiveDate) : Int :=
  let y : Int := if dt.month ≤ 2 then dt.year - 1 else dt.year
  let era : Int := (if 0 ≤ y then y else y - 399).tdiv 400
  let yoe : Int := y - era * 400
  let mp : Int := (Int.ofNat dt.month + 9) % 12
  let doy : Int := (153 * mp + 2).tdiv 5 + Int.ofNat dt.day - 1
  let doe : Int := yoe * 365 + yoe.tdiv 4 - yoe.tdiv 100 + doy
  era * 146097 + doe - 719468

/-- Seconds since midnight of a time of day. -/
def secondsOfDay (t : NaiveTime) : Nat :=
  t.hour * 3600 + t.minute * 60 + t.second

/-- Nanoseconds since midnight of a time of day
(`chrono`: `NaiveDate::default().and_time(t).timestamp_nanos()`,
where the default date is the epoch 1970-01-01). -/
def nanosOfDay (t : NaiveTime) : Nat :=
  secondsOfDay t * 1000000000 + t.nano

/-- Nanoseconds since the epoch of a date-time
(`chrono::NaiveDateTime::timestamp_nanos`). -/
def timestampNanos (dt : NaiveDateTime) : Int :=
  (daysFromCivil dt.date * 86400 + Int.ofNat (secondsOfDay dt.time)) * 1000000000
    + Int.ofNat dt.time.nano

/-- Milliseconds since the epoch of a date's midnight
(`value.and_time(NaiveTime::default()).timestamp_millis()` in
`BindingValue::to_string`; the default time is midnight). -/
def dateMidnightMillis (d : NaiveDate) : Int :=
  daysFromCivil d * 86400000

/-- Wire string `BindingValue::Date` sends: epoch milliseconds of midnight. -/
def dateWireString (d : NaiveDate) : String :=
  intToString (dateMidnightMillis d)

/-- Wire string `BindingValue::DateTime` sends: epoch nanoseconds. -/
def dateTimeWireString (dt : NaiveDateTime) : String :=
  intToString (timestampNanos dt)

/-- Numeric value `BindingValue::Time` sends: the `rust_decimal` quotient
`Decimal::new(nanos_of_day, 0) / dec!(60)`, modelled as an exact rational
(`rust_decimal` renders it with at most 28 fractional digits). -/
def timeWireValue (t : NaiveTime) : ℚ :=
  (nanosOfDay t : ℚ) / 60

/-- Modelled from the spec: "a time-of-day encodes as a fractional-minutes
decimal" — the elapsed time since midnight expressed in minutes. The code
under `src/` divides raw nanoseconds by 60 instead; this definition exists
to compare the spec's wording against the code's `timeWireValue`. -/
def specTimeFractionalMinutes (t : NaiveTime) : ℚ :=
  (nanosOfDay t : ℚ) / (60 * 1000000000)

/-- Leap year test of the proleptic Gregorian calendar. -/
def isLeapYear (y : Int) : Bool :=
  (y % 4 == 0 && y % 100 != 0) || y % 400 == 0

/-- Days in a month of the proleptic Gregorian calendar. -/
def daysInMonth (y : Int) (m : Nat) : Nat :=
  if m = 2 then (if isLeapYear y then 29 else 28)
  else if m = 4 ∨ m = 6 ∨ m = 9 ∨ m = 11 then 30 else 31

/-- Splits an optional leading minus sign off a character list. -/
def stripLeadingDash (cs : List Char) : Bool × List Char :=
  match cs with
  | [] => (false, [])
  | c :: rest => if c = '-' then (true, rest) else (false, cs)

/-- Consumes a mandatory literal dash, failing otherwise. -/
def expectDash (cs : List Char) : Option (List Char) :=
  match cs with
  | [] => none
  | c :: rest => if c = '-' then some rest else none

/-- Model of `chrono::NaiveDate::parse_from_str(s, "%Y-%m-%d")`, the
`DeserializeFromStr` instance for `NaiveDate` in
`snowflake-deserializer/src/lib.rs`: an optionally signed year numeral,
a literal dash, a month numeral, a literal dash, a day numeral, end of
input, with calendar validity checks. -/
def parseNaiveDateStr (s : String) : Option NaiveDate :=
  let (neg, cs0) := stripLeadingDash s.data
  let yds := cs0.takeWhile Char.isDigit
  let cs1 := cs0.dropWhile Char.isDigit
  if yds.isEmpty then none else
  let year : Int := if neg then -(Int.ofNat (charsToNat yds)) else Int.ofNat (charsToNat yds)
  match expectDash cs1 with
  | none => none
  | some cs2 =>
    let mds := cs2.takeWhile Char.isDigit
    let cs3 := cs2.dropWhile Char.isDigit
    if mds.isEmpty then none else
    let m := charsToNat mds
    match expectDash cs3 with
    | none => none
    | some cs4 =>
      let dds := cs4.takeWhile Char.isDigit
      let cs5 := cs4.dropWhile Char.isDigit
      if dds.isEmpty || !cs5.isEmpty then none else
      let d := charsToNat dds
      if 1 ≤ m && m ≤ 12 && 1 ≤ d && d ≤ daysInMonth year m then
        some ⟨year, m, d⟩
      else none

/-! ### Binding value model

Embeds `snowflake-deserializer/src/bindings.rs`: the `BindingValue` union,
its `BindingType` tag, and its canonical wire-string encoding. Payloads of
the float and decimal variants, whose `Display` lives in external crates,
are carried opaquely and rendered through explicit function arguments. -/

/-- Bit-pattern carrier for a Rust `f32` payload. -/
structure RustF32 where
  bits : Nat
  deriving DecidableEq, Repr

/-- Bit-pattern carrier for a Rust `f64` payload. -/
structure RustF64 where
  bits : Nat
  deriving DecidableEq, Repr

/-- Carrier for a `rust_decimal::Decimal` payload: scaled integer mantissa. -/
structure RustDecimal where
  mantissa : Int
  scale : Nat
  deriving DecidableEq, Repr

/-- The `BindingValue` union of `bindings.rs`. -/
inductive BindingValue where
  | bool (v : Bool)
  | byte (v : Int)
  | smallInt (v : Int)
  | int (v : Int)
  | bigInt (v : Int)
  | isize (v : Int)
  | ubyte (v : Nat)
  | smallUInt (v : Nat)
  | uint (v : Nat)
  | bigUInt (v : Nat)
  | usize (v : Nat)
  | float (v : RustF32)
  | double (v : RustF64)
  | decimal (v : RustDecimal)
  | char (v : Char)
  | string (v : String)
  | dateTime (v : NaiveDateTime)
  | date (v : NaiveDate)
  | time (v : NaiveTime)
  deriving DecidableEq, Repr

/-- The `BindingType` tag enumeration of `bindings.rs`. -/
inductive BindingType where
  | bool
  | fixed
  | real
  | text
  | dateTime
  | date
  | time
  deriving DecidableEq, Repr

/-- Wire name of a `BindingType` (`impl ToString for BindingType`). -/
def bindingTypeToString : BindingType → String
  | .bool => "BOOLEAN"
  | .fixed => "FIXED"
  | .real => "REAL"
  | .text => "TEXT"
  | .dateTime => "TIMESTAMP_NTZ"
  | .date => "DATE"
  | .time => "TIME"

/-- Tag of a value (`impl From<BindingValue> for BindingType`). -/
def bindingTypeOfValue : BindingValue → BindingType
  | .bool _ => .bool
  | .byte _ | .smallInt _ | .int _ | .bigInt _ | .isize _
  | .ubyte _ | .smallUInt _ | .uint _ | .bigUInt _ | .usize _ => .fixed
  | .float _ | .double _ | .decimal _ => .real
  | .char _ | .string _ => .text
  | .dateTime _ => .dateTime
  | .date _ => .date
  | .time _ => .time

/-- Canonical wire string of a value (`impl ToString for BindingValue`).
`floatStr`, `doubleStr` and `decimalStr` stand for the external `Display`
implementations of `f32`, `f64` and `rust_decimal::Decimal`; `ratDecimalStr`
stands for `rust_decimal`'s rendering of the exact quotient computed for
the time variant. -/
def bindingValueToString (floatStr : RustF32 → String) (doubleStr : RustF64 → String)
    (decimalStr : RustDecimal → String) (ratDecimalStr : ℚ → String) :
    BindingValue → String
  | .bool v => boolToString v
  | .byte v | .smallInt v | .int v | .bigInt v | .isize v => intToString v
  | .ubyte v | .smallUInt v | .uint v | .bigUInt v | .usize v => natToString v
  | .float v => floatStr v
  | .double v => doubleStr v
  | .decimal v => decimalStr v
  | .char v => String.mk [v]
  | .string v => v
  | .dateTime v => dateTimeWireString v
  | .date v => dateWireString v
  | .time v => ratDecimalStr (timeWireValue v)

/-! ### The eager decoders

Embeds the `DeserializeFromStr` instances. Two revisions coexist in the
repository: `snowflake-deserializer/src/lib.rs` decodes plain string cells
and encodes SQL NULL as the literal string "NULL" (the requests are sent
with `nullable=false`); `snowflake-deserialize/src/lib.rs` decodes
`Option<String>` cells where SQL NULL is `None`. -/

/-- The `impl DeserializeFromStr for Option<T>` of
`snowflake-deserializer/src/lib.rs` (lines 600-612): the literal cell
string "NULL" decodes to `None`, any other cell is decoded by the inner
instance and wrapped in `Some`. -/
def deserializeOptionFromStr {ε α : Type} (inner : String → Except ε α)
    (value : String) : Except ε (Option α) :=
  if value = "NULL" then .ok none else (inner value).map some

/-- Error context of the `snowflake-deserialize` field decoders:
an unexpected SQL NULL, or an integer parse failure. -/
inductive FieldDecodeError where
  | unexpectedNull
  | intParse (e : IntParseError)
  deriving DecidableEq, Repr

/-- The `snowflake-deserialize` `DeserializeFromStr` instance for `i64`:
a NULL cell is an error, otherwise Rust's `i64::from_str`. -/
def dfsI64 (s : Option String) : Except FieldDecodeError Int :=
  match s with
  | none => .error .unexpectedNull
  | some str => match parseSignedRange i64MinVal i64MaxVal str with
    | .ok v => .ok v
    | .error e => .error (.intParse e)

/-- The `snowflake-deserialize` `DeserializeFromStr` instance for `String`. -/
def dfsString (s : Option String) : Except FieldDecodeError String :=
  match s with
  | none => .error .unexpectedNull
  | some str => .ok str

/-- The `snowflake-deserialize` `impl DeserializeFromStr for Option<T>`
(lines 98-109): a `None` cell decodes to `None`, otherwise the inner
instance runs and its result is wrapped in `Some`. -/
def dfsOption {α : Type} (inner : Option String → Except FieldDecodeError α)
    (s : Option String) : Except FieldDecodeError (Option α) :=
  match s with
  | none => .ok none
  | some v => (inner (some v)).map some

/-- Target record of the spec's decoding example:
`{client_id: i64, name: Option<String>}`. -/
structure ClientRecord where
  clientId : Int
  name : Option String
  deriving DecidableEq, Repr

/-- Error enum the derive macro generates for `ClientRecord`
(`snowflake_connector_derive/src/lib.rs` lines 132-170): one variant per
field, carrying the raw cell value and the underlying decode failure. -/
inductive ClientRecordDeserializeError where
  | clientId (actualValue : Option String) (error : FieldDecodeError)
  | name (actualValue : Option String) (error : FieldDecodeError)
  deriving DecidableEq, Repr

/-- Per-row conversion the derive macro generates for `ClientRecord`
(lines 109-123): field `i` decodes cell `data[i]`, wrapping any failure in
the field's error variant together with the raw cell. The outer `Option`
is `none` exactly when the row is too short for the generated `data[i]`
indexing (a Rust panic). -/
def clientRecordDecodeRow (data : List (Option String)) :
    Option (Except ClientRecordDeserializeError ClientRecord) :=
  match data[0]?, data[1]? with
  | some c0, some c1 =>
    some (do
      let clientId ← (dfsI64 c0).mapError (ClientRecordDeserializeError.clientId c0)
      let name ← (dfsOption dfsString c1).mapError (ClientRecordDeserializeError.name c1)
      pure { clientId := clientId, name := name })
  | _, _ => none

/-- The generated `snowflake_deserialize` loop: decodes every row in
order, stopping at the first failing row with no partial output. -/
def clientRecordDeserializeRows (rows : List (List (Option String))) :
    Option (Except ClientRecordDeserializeError (List ClientRecord)) :=
  match rows with
  | [] => some (.ok [])
  | r :: rest =>
    match clientRecordDecodeRow r with
    | none => none
    | some (.error e) => some (.error e)
    | some (.ok x) =>
      match clientRecordDeserializeRows rest with
      | none => none
      | some (.error e) => some (.error e)
      | some (.ok xs) => some (.ok (x :: xs))

/-! ### Response shapes and the HTTP boundary

Embeds the serde response shapes and models one HTTP exchange as a status
code plus the possible parses of the body (what `reqwest::Response::json`
would yield for each target shape). -/

/-- Opaque statement identifier (`StatementHandle`). -/
structure StatementHandle where
  handle : String
  deriving DecidableEq, Repr

/-- The `QueryStatus` shape of `snowflake-deserializer/src/lib.rs`. -/
structure QueryStatusM where
  code : String
  sqlState : String
  message : String
  statementHandle : StatementHandle
  createdOn : Int
  statementStatusUrl : String
  deriving DecidableEq, Repr

/-- The `QueryFailureStatus` shape: terminal failures may omit timing data. -/
structure QueryFailureStatusM where
  code : String
  sqlState : String
  message : String
  statementHandle : StatementHandle
  createdOn : Option Int
  statementStatusUrl : Option String
  deriving DecidableEq, Repr

/-- Column descriptor (`RowType`). -/
structure RowTypeM where
  name : String
  database : String
  schema : String
  table : String
  precision : Option Nat
  byteLength : Option Nat
  dataType : String
  scale : Option Int
  nullable : Bool
  deriving DecidableEq, Repr

/-- Result-set metadata of the `snowflake-deserializer` crate (`MetaData`). -/
structure MetaDataJ where
  numRows : Nat
  format : String
  rowType : List RowTypeM
  deriving DecidableEq, Repr

/-- The `SnowflakeSQLResponse` shape of `snowflake-deserializer/src/lib.rs`:
string cells (`nullable=false` requests). -/
structure SnowflakeSQLResponseJ where
  resultSetMetaData : MetaDataJ
  data : List (List String)
  code : String
  statementStatusUrl : String
  requestId : String
  sqlState : String
  message : String
  deriving DecidableEq, Repr

instance {ε α : Type} [DecidableEq ε] [DecidableEq α] : DecidableEq (Except ε α)
  | .ok x, .ok y => if h : x = y then .isTrue (by rw [h]) else .isFalse (by simp [h])
  | .ok _, .error _ => .isFalse (by simp)
  | .error _, .ok _ => .isFalse (by simp)
  | .error e, .error f => if h : e = f then .isTrue (by rw [h]) else .isFalse (by simp [h])

/-- Possible parses of one response body. -/
structure HttpBody where
  asSqlResponse : Except String SnowflakeSQLResponseJ
  asQueryStatus : Except String QueryStatusM
  asQueryFailure : Except String QueryFailureStatusM
  deriving DecidableEq, Repr

/-- One received HTTP response: status code and body. -/
structure HttpResponse where
  status : Nat
  body : HttpBody
  deriving DecidableEq, Repr

/-- A transport-level `reqwest::Error`: optional status plus message. -/
structure TransportError where
  status : Option Nat
  message : String
  deriving DecidableEq, Repr

/-! ### Multi-statement batch executor

Embeds `snowflake-deserializer/src/multiple.rs`: the statement builder,
the per-handle status classification, and the batch drain. The network is
a function from a handle to the transport outcome of its status GET. -/

/-- Builder state (`MultipleSnowflakeSQLData`): pushed statement texts and
the extra count absorbed by multi-adds. -/
structure MultipleSQLData where
  statement : List String
  additionalStatementsCount : Nat
  deriving DecidableEq, Repr

/-- The empty builder `multiple_statements` starts from. -/
def emptyMultipleSQLData : MultipleSQLData :=
  { statement := [], additionalStatementsCount := 0 }

/-- `add_sql`: push one literal statement text. -/
def addSql (d : MultipleSQLData) (sql : String) : MultipleSQLData :=
  { d with statement := d.statement ++ [sql] }

/-- `add_multiple_sql`: push one literal text containing `count`
semicolon-joined statements; `additional_statements_count` absorbs
`count - 1` (the `count` argument is a `NonZeroUsize`). -/
def addMultipleSql (d : MultipleSQLData) (count : Nat) (sql : String) : MultipleSQLData :=
  { statement := d.statement ++ [sql],
    additionalStatementsCount := d.additionalStatementsCount + (count - 1) }

/-- Rust's `Vec::join` with a single-space separator. -/
def joinSpace : List String → String
  | [] => ""
  | [s] => s
  | s :: rest => s ++ " " ++ joinSpace rest

/-- `get_statement` (`multiple.rs` lines 185-189): the concatenated
statement and the `MULTI_STATEMENT_COUNT` parameter. -/
def getStatement (d : MultipleSQLData) : String × Nat :=
  (joinSpace d.statement, d.statement.length + d.additionalStatementsCount)

/-- The `StatementError` enum of `multiple.rs`. -/
inductive StatementError where
  | tooManyRequests (status : Nat)
  | decode (e : String)
  | query (e : QueryFailureStatusM)
  | unknown (status : Nat)
  | unknownResponse (e : String)
  deriving DecidableEq, Repr

/-- The `Parse` handle of a completed statement: the statement handle and
the still-unparsed HTTP response. -/
structure ParseM where
  statementHandle : StatementHandle
  response : HttpResponse
  deriving DecidableEq, Repr

/-- The `StatementStatus` enum: still-processing status or completed parse. -/
inductive StatementStatus where
  | status (q : QueryStatusM)
  | parse (p : ParseM)
  deriving DecidableEq, Repr

/-- `MultipleSnowflakeSQLResponse::statement_status` (`multiple.rs` lines
249-298): classifies the status GET of one handle by HTTP status code. -/
def statementStatus (statementHandle : StatementHandle)
    (response : Except TransportError HttpResponse) :
    Except StatementError StatementStatus :=
  match response with
  | .ok r =>
    if r.status = 200 then .ok (.parse ⟨statementHandle, r⟩)
    else if r.status = 422 then
      match r.body.asQueryFailure with
      | .ok e => .error (.query e)
      | .error e => .error (.decode e)
    else if r.status = 408 ∨ r.status = 202 then
      match r.body.asQueryStatus with
      | .ok q => .ok (.status q)
      | .error e => .error (.decode e)
    else if r.status = 429 ∨ r.status = 503 ∨ r.status = 504 then
      .error (.tooManyRequests r.status)
    else .error (.unknown r.status)
  | .error e =>
    match e.status with
    | some st => .error (.unknown st)
    | none => .error (.unknownResponse e.message)

/-- The loop body of `complete` (`multiple.rs` lines 309-335): polls the
pending handles in order from position `i`, collecting every outcome and
the index set to remove. A rate-limited poll (`TooManyRequests`) and a
still-processing status are the only outcomes whose index is not marked
for removal. -/
def completeAux (net : StatementHandle → Except TransportError HttpResponse) :
    List StatementHandle → Nat →
    List (Except StatementError StatementStatus) × List Nat
  | [], _ => ([], [])
  | h :: rest, i =>
    let entry := statementStatus h (net h)
    let (results, toRemove) := completeAux net rest (i + 1)
    match entry with
    | .ok (.status q) => (.ok (.status q) :: results, toRemove)
    | .ok (.parse p) => (.ok (.parse p) :: results, i :: toRemove)
    | .error (.tooManyRequests st) => (.error (.tooManyRequests st) :: results, toRemove)
    | .error e => (.error e :: results, i :: toRemove)

/-- `Vec::retain` with the index counter of `complete` (lines 336-341):
keeps the element at position `i` exactly when `i` is not marked. -/
def retainFrom (toRemove : List Nat) : List StatementHandle → Nat → List StatementHandle
  | [], _ => []
  | h :: rest, i =>
    if toRemove.contains i then retainFrom toRemove rest (i + 1)
    else h :: retainFrom toRemove rest (i + 1)

/-- `MultipleSnowflakeSQLResponse::complete` (lines 304-343): one drain
round over the pending handles, returning every poll outcome in order and
the updated pending set. -/
def complete (net : StatementHandle → Except TransportError HttpResponse)
    (handles : List StatementHandle) :
    List (Except StatementError StatementStatus) × List StatementHandle :=
  let (results, toRemove) := completeAux net handles 0
  (results, retainFrom toRemove handles 0)

/-- `are_all_complete`: the pending set is empty. -/
def areAllComplete (handles : List StatementHandle) : Bool :=
  handles.isEmpty

/-- Error of `Parse::selected`. -/
inductive ParseSelectError (E : Type) where
  | decode (e : String)
  | deserialize (e : E)
  deriving DecidableEq, Repr

/-- `Parse::selected` (`multiple.rs` lines 363-374): parse the stored
response body as a `SnowflakeSQLResponse`, then run the typed decode. -/
def parseSelected {E T : Type} (deser : SnowflakeSQLResponseJ → Except E T)
    (p : ParseM) : Except (ParseSelectError E) T :=
  match p.response.body.asSqlResponse with
  | .error e => .error (.decode e)
  | .ok r =>
    match deser r with
    | .error e => .error (.deserialize e)
    | .ok t => .ok t

/-! ### Single-statement select classification

Embeds `SnowflakeSQL::select` of `snowflake-deserializer/src/lib.rs`
(lines 223-257). -/

/-- Typed result rows (`SnowflakeSQLResult<T>`). -/
structure SnowflakeSQLResultM (T : Type) where
  data : List T
  deriving DecidableEq, Repr

/-- The in-progress continuation (`SnowflakeQueryStatus`): bound to the
host so the handle can be polled again or cancelled. -/
structure SnowflakeQueryStatusM where
  host : String
  queryStatus : QueryStatusM
  deriving DecidableEq, Repr

/-- `StatementResult<T>`: query still running, or finished with rows. -/
inductive StatementResultM (T : Type) where
  | status (s : SnowflakeQueryStatusM)
  | result (r : SnowflakeSQLResultM T)
  deriving DecidableEq, Repr

/-- The `SnowflakeSQLSelectError` enum. -/
inductive SnowflakeSQLSelectError (E : Type) where
  | request (e : String)
  | decode (e : String)
  | deserialize (e : E)
  | query (e : QueryFailureStatusM)
  | unknown (status : Nat)
  deriving DecidableEq, Repr

/-- `SnowflakeSQL::select`: classifies the submission response by HTTP
status code; `deser` is the target type's `snowflake_deserialize`. -/
def select {E T : Type} (host : String)
    (deser : SnowflakeSQLResponseJ → Except E (SnowflakeSQLResultM T))
    (response : Except String HttpResponse) :
    Except (SnowflakeSQLSelectError E) (StatementResultM T) :=
  match response with
  | .error e => .error (.request e)
  | .ok r =>
    if r.status = 200 then
      match r.body.asSqlResponse with
      | .error e => .error (.decode e)
      | .ok sr =>
        match deser sr with
        | .error e => .error (.deserialize e)
        | .ok res => .ok (.result res)
    else if r.status = 408 ∨ r.status = 202 then
      match r.body.asQueryStatus with
      | .error e => .error (.decode e)
      | .ok q => .ok (.status ⟨host, q⟩)
    else if r.status = 422 then
      match r.body.asQueryFailure with
      | .error e => .error (.decode e)
      | .ok f => .error (.query f)
    else .error (.unknown r.status)

/-! ### Partitioned result assembly

Embeds `PendingQuery::fetch_and_merge_partitions` of `src/src/lib.rs`
(lines 140-174) over the `snowflake-deserialize` response shape, whose
cells are nullable strings. -/

/-- Per-partition metadata (`PartitionInfo`). -/
structure PartitionInfoM where
  rowCount : Nat
  uncompressedSize : Nat
  deriving DecidableEq, Repr

/-- Result-set metadata of the `snowflake-deserialize` crate. -/
structure MetaDataP where
  numRows : Nat
  format : String
  rowType : List RowTypeM
  partitionInfo : List PartitionInfoM
  deriving DecidableEq, Repr

/-- The `SnowflakeSqlResponse` shape of `snowflake-deserialize/src/lib.rs`. -/
structure SnowflakeSqlResponseP where
  resultSetMetaData : MetaDataP
  data : List (List (Option String))
  code : String
  statementStatusUrl : String
  requestId : String
  sqlState : String
  message : String
  statementHandle : String
  deriving DecidableEq, Repr

/-- `SnowflakeSqlResponse::has_partitions` (lines 45-55). -/
def hasPartitions (r : SnowflakeSqlResponseP) : Bool :=
  r.resultSetMetaData.partitionInfo.length > 1

/-- The `{data: [[...]]}` shape a partition GET returns. -/
structure PartitionM where
  data : List (List (Option String))
  deriving DecidableEq, Repr

/-- `PendingQuery::get_partition_url`. -/
def getPartitionUrl (host statementHandle : String) (index : Nat) : String :=
  host ++ "statements/" ++ statementHandle ++ "?partition=" ++ natToString index

/-- The fetch loop of `fetch_and_merge_partitions`: visits the partition
indices in order, appending each fetched partition's rows to the
accumulated data; the first fetch failure aborts with that error. -/
def fetchLoop (fetch : Nat → Except String PartitionM) :
    List Nat → List (List (Option String)) → Except String (List (List (Option String)))
  | [], acc => .ok acc
  | i :: rest, acc =>
    match fetch i with
    | .error e => .error e
    | .ok p => fetchLoop fetch rest (acc ++ p.data)

/-- `fetch_and_merge_partitions`: partitions `1..len` are fetched
sequentially and merged into the initial response's data matrix. -/
def fetchAndMergePartitions (fetch : Nat → Except String PartitionM)
    (r : SnowflakeSqlResponseP) : Except String (List (List (Option String))) :=
  fetchLoop fetch ((List.range r.resultSetMetaData.partitionInfo.length).drop 1) r.data

/-! ### Lazy row access

Embeds `snowflake-deserializer/src/lazy.rs`: the name-indexed column
lookup built by `parse_rows` and the single-cell accessors of `LazyRow`.
The JSON decoding of one cell (`serde_json::from_str::<T>`) is an explicit
function argument. -/

/-- One `HashMap::insert`: overwrite the key's entry or append it. -/
def insertAssoc (m : List (String × Nat)) (k : String) (v : Nat) : List (String × Nat) :=
  if m.any (fun p => p.1 == k) then m.map (fun p => if p.1 == k then (k, v) else p)
  else m ++ [(k, v)]

/-- The `name_index_map` built by `parse_rows` (lazy.rs lines 59-62):
each column name maps to its position, later duplicates overwriting. -/
def buildNameIndexMap (rowTypes : List RowTypeM) : List (String × Nat) :=
  rowTypes.enum.foldl (fun m p => insertAssoc m p.2.name p.1) []

/-- `HashMap::get` on the model map. -/
def lookupAssoc (m : List (String × Nat)) (k : String) : Option Nat :=
  (m.find? (fun p => p.1 == k)).map (fun p => p.2)

/-- Outcome of a single-cell access, with `panicked` standing for the Rust
panic an out-of-bounds `Vec` index raises. -/
inductive LazyGetOutcome (T : Type) where
  | ok (value : T)
  | unknownName (name : String)
  | invalidIndex (index : Nat)
  | deserializeError (e : String)
  | panicked
  deriving DecidableEq, Repr

/-- `LazyRow::get` (lazy.rs lines 175-185): looks the column name up in
the map, then indexes the row with `self.data[*index]` — an index beyond
the row's length is a panic, not an error value. -/
def lazyRowGet {T : Type} (jsonDec : String → Except String T)
    (nameIndexMap : List (String × Nat)) (data : List String)
    (columnName : String) : LazyGetOutcome T :=
  match lookupAssoc nameIndexMap columnName with
  | none => .unknownName columnName
  | some index =>
    match data[index]? with
    | none => .panicked
    | some s =>
      match jsonDec s with
      | .ok t => .ok t
      | .error e => .deserializeError e

/-- `LazyRow::get_from_index` (lazy.rs lines 186-195): bounds-checked
access via `self.data.get(column_index)`. -/
def lazyRowGetFromIndex {T : Type} (jsonDec : String → Except String T)
    (data : List String) (columnIndex : Nat) : LazyGetOutcome T :=
  match data[columnIndex]? with
  | none => .invalidIndex columnIndex
  | some v =>
    match jsonDec v with
    | .ok t => .ok t
    | .error e => .deserializeError e

/-! ### Characterizations and concrete fixtures used by the theorems -/

/-- Poll outcomes `complete` keeps in the pending set: a still-processing
status and a rate-limited error; every other outcome is removed. -/
def keepsPending : Except StatementError StatementStatus → Bool
  | .ok (.status _) => true
  | .error (.tooManyRequests _) => true
  | _ => false

/-- Total declared row count of a partitioned response. -/
def sumRowCounts (pinfo : List PartitionInfoM) : Nat :=
  (pinfo.map (fun p => p.rowCount)).sum

/-- Successfully parsed result body used by the drain fixture. -/
def sqlRespFix : SnowflakeSQLResponseJ :=
  { resultSetMetaData := { numRows := 1, format := "jsonv2", rowType := [] },
    data := [["3"]],
    code := "090001",
    statementStatusUrl := "/api/v2/statements/handle-1",
    requestId := "req-1",
    sqlState := "00000",
    message := "Statement executed successfully." }

/-- Body of the 200 response in the drain fixture. -/
def body200 : HttpBody :=
  { asSqlResponse := .ok sqlRespFix,
    asQueryStatus := .error "not a status body",
    asQueryFailure := .error "not a failure body" }

/-- Body of the 429 response in the drain fixture. -/
def body429 : HttpBody :=
  { asSqlResponse := .error "rate limited",
    asQueryStatus := .error "rate limited",
    asQueryFailure := .error "rate limited" }

/-- Service failure payload of the 422 response in the drain fixture. -/
def qfFix : QueryFailureStatusM :=
  { code := "002003",
    sqlState := "42S02",
    message := "Object does not exist.",
    statementHandle := ⟨"handle-3"⟩,
    createdOn := none,
    statementStatusUrl := none }

/-- Body of the 422 response in the drain fixture. -/
def body422 : HttpBody :=
  { asSqlResponse := .error "failure body",
    asQueryStatus := .error "failure body",
    asQueryFailure := .ok qfFix }

/-- Pending handles of the drain fixture. -/
def drainHandles : List StatementHandle :=
  [⟨"handle-1"⟩, ⟨"handle-2"⟩, ⟨"handle-3"⟩]

/-- Network of the drain fixture: H1 polls 200, H2 polls 429, H3 polls 422. -/
def drainNet (h : StatementHandle) : Except TransportError HttpResponse :=
  if h.handle = "handle-1" then .ok ⟨200, body200⟩
  else if h.handle = "handle-2" then .ok ⟨429, body429⟩
  else .ok ⟨422, body422⟩

/-- Trivial typed decode standing for `T::snowflake_deserialize` where the
target rows are the raw cells themselves. -/
def rowsDeser (r : SnowflakeSQLResponseJ) : Except String (List (List String)) :=
  .ok r.data

/-- Column descriptor fixture: the CLIENT_ID column. -/
def rtClientId : RowTypeM :=
  { name := "CLIENT_ID", database := "DB", schema := "PUBLIC", table := "T",
    precision := some 38, byteLength := none, dataType := "fixed",
    scale := some 0, nullable := false }

/-- Column descriptor fixture: the CLIENT_NAME column. -/
def rtClientName : RowTypeM :=
  { name := "CLIENT_NAME", database := "DB", schema := "PUBLIC", table := "T",
    precision := none, byteLength := some 16777216, dataType := "text",
    scale := none, nullable := true }

/-- Identity single-cell JSON decode used by the lazy-access fixtures. -/
def jsonDecId (s : String) : Except String String := .ok s

/-- Partition fetch fixture: partition 1 returns two rows. -/
def fetchFix (i : Nat) : Except String PartitionM :=
  if i = 1 then .ok ⟨[[some "b"], [some "c"]]⟩ else .error "unrequested partition"

/-- Partition contents fixture matching `fetchFix`. -/
def partsFix (i : Nat) : PartitionM :=
  if i = 1 then ⟨[[some "b"], [some "c"]]⟩ else ⟨[]⟩

/-- Typed decode fixture returning the raw cells as the result rows. -/
def rowsDeserR (r : SnowflakeSQLResponseJ) :
    Except String (SnowflakeSQLResultM (List String)) :=
  .ok ⟨r.data⟩

/-- Partitioned response fixture: two partitions declaring 1 and 2 rows. -/
def respFixP : SnowflakeSqlResponseP :=
  { resultSetMetaData :=
      { numRows := 3, format := "jsonv2", rowType := [],
        partitionInfo := [⟨1, 10⟩, ⟨2, 20⟩] },
    data := [[some "a"]],
    code := "090001",
    statementStatusUrl := "/api/v2/statements/handle-p",
    requestId := "req-p",
    sqlState := "00000",
    message := "Statement executed successfully.",
    statementHandle := "handle-p" }

/-! ### Supporting lemmas -/

theorem parseUnsignedChars_cons (c : Char) (rest : List Char) :
    parseUnsignedChars (c :: rest) =
      if c = '+' then parseNatDigits rest else parseNatDigits (c :: rest) := rfl

theorem parseIntChars_cons (c : Char) (rest : List Char) :
    parseIntChars (c :: rest) =
      if c = '-' then (parseNatDigits rest).map (fun n => -(Int.ofNat n))
      else if c = '+' then (parseNatDigits rest).map Int.ofNat
      else (parseNatDigits (c :: rest)).map Int.ofNat := rfl

theorem digitChar_toNat {d : Nat} (h : d < 10) : (digitChar d).toNat = 48 + d := by
  interval_cases d <;> decide

theorem digitChar_isDigit {d : Nat} (h : d < 10) : (digitChar d).isDigit = true := by
  interval_cases d <;> decide

theorem natToDigitsLEAux_spec (fuel : Nat) :
    ∀ n, n ≤ fuel →
      valLE (natToDigitsLEAux fuel n) = n
      ∧ natToDigitsLEAux fuel n ≠ []
      ∧ ∀ d ∈ natToDigitsLEAux fuel n, d < 10 := by
  induction fuel with
  | zero =>
    intro n h
    have hn : n = 0 := Nat.le_zero.mp h
    subst hn
    exact ⟨rfl, by simp [natToDigitsLEAux], by simp [natToDigitsLEAux]⟩
  | succ fuel ih =>
    intro n h
    rw [natToDigitsLEAux]
    by_cases hn : n < 10
    · rw [if_pos hn]
      exact ⟨by simp [valLE], by simp, by simpa using by omega⟩
    · rw [if_neg hn]
      have hrec : n / 10 ≤ fuel := by omega
      obtain ⟨hval, hne, hlt⟩ := ih (n / 10) hrec
      refine ⟨?_, by simp, ?_⟩
      · rw [valLE, hval]
        omega
      · intro d hd
        rcases List.mem_cons.mp hd with rfl | hd2
        · omega
        · exact hlt d hd2

theorem natToDigitsLE_ne_nil (n : Nat) : natToDigitsLE n ≠ [] :=
  (natToDigitsLEAux_spec n n (Nat.le_refl n)).2.1

theorem natToDigitsLE_lt (n : Nat) : ∀ d ∈ natToDigitsLE n, d < 10 :=
  (natToDigitsLEAux_spec n n (Nat.le_refl n)).2.2

theorem valLE_natToDigitsLE (n : Nat) : valLE (natToDigitsLE n) = n :=
  (natToDigitsLEAux_spec n n (Nat.le_refl n)).1

theorem charsToNat_reverse_map (ds : List Nat) (h : ∀ d ∈ ds, d < 10) :
    charsToNat ((ds.map digitChar).reverse) = valLE ds := by
  induction ds with
  | nil => rfl
  | cons d tail ih =>
    have hd : d < 10 := h d (by simp)
    have htail : ∀ x ∈ tail, x < 10 := fun x hx => h x (by simp [hx])
    simp only [List.map_cons, List.reverse_cons]
    unfold charsToNat
    rw [List.foldl_append]
    have : charsToNat ((tail.map digitChar).reverse) = valLE tail := ih htail
    unfold charsToNat at this
    rw [this, valLE]
    simp only [List.foldl_cons, List.foldl_nil]
    rw [digitChar_toNat hd]
    omega

theorem parseNatDigits_natToString (n : Nat) :
    parseNatDigits (natToString n).data = .ok n := by
  have hne : natToDigitsLE n ≠ [] := natToDigitsLE_ne_nil n
  have hlt := natToDigitsLE_lt n
  unfold parseNatDigits natToString
  have hne2 : ((natToDigitsLE n).map digitChar).reverse ≠ [] := by
    simp [hne]
  have hdig : (((natToDigitsLE n).map digitChar).reverse).all Char.isDigit = true := by
    rw [List.all_eq_true]
    intro c hc
    rw [List.mem_reverse, List.mem_map] at hc
    obtain ⟨d, hd, rfl⟩ := hc
    exact digitChar_isDigit (hlt d hd)
  rw [if_neg (by simpa [List.isEmpty_iff] using hne2), if_pos hdig,
    charsToNat_reverse_map _ hlt, valLE_natToDigitsLE]

theorem natToString_data_digits (n : Nat) :
    ∀ c ∈ (natToString n).data, c.isDigit = true := by
  intro c hc
  unfold natToString at hc
  rw [List.mem_reverse, List.mem_map] at hc
  obtain ⟨d, hd, rfl⟩ := hc
  exact digitChar_isDigit (natToDigitsLE_lt n d hd)

theorem natToString_data_ne_nil (n : Nat) : (natToString n).data ≠ [] := by
  unfold natToString
  simp [natToDigitsLE_ne_nil n]

theorem isDigit_ne_plus {c : Char} (h : c.isDigit = true) : c ≠ '+' := by
  intro he; subst he; revert h; decide

theorem isDigit_ne_minus {c : Char} (h : c.isDigit = true) : c ≠ '-' := by
  intro he; subst he; revert h; decide

theorem parseUnsignedChars_natToString (n : Nat) :
    parseUnsignedChars (natToString n).data = .ok n := by
  rcases hc : (natToString n).data with _ | ⟨c, rest⟩
  · exact absurd hc (natToString_data_ne_nil n)
  · have hdig : c.isDigit = true := natToString_data_digits n c (by rw [hc]; simp)
    rw [parseUnsignedChars_cons, if_neg (isDigit_ne_plus hdig), ← hc,
      parseNatDigits_natToString]

theorem parseIntChars_intToString (v : Int) :
    parseIntChars (intToString v).data = .ok v := by
  unfold intToString
  by_cases hv : v < 0
  · rw [if_pos hv]
    show parseIntChars ('-' :: (natToString v.natAbs).data) = .ok v
    rw [parseIntChars_cons, if_pos rfl, parseNatDigits_natToString]
    simp only [Except.map, Except.ok.injEq, Int.ofNat_eq_natCast]
    omega
  · rw [if_neg hv]
    rcases hc : (natToString v.natAbs).data with _ | ⟨c, rest⟩
    · exact absurd hc (natToString_data_ne_nil _)
    · have hdig : c.isDigit = true := natToString_data_digits _ c (by rw [hc]; simp)
      rw [parseIntChars_cons, if_neg (isDigit_ne_minus hdig),
        if_neg (isDigit_ne_plus hdig), ← hc, parseNatDigits_natToString]
      simp only [Except.map, Except.ok.injEq, Int.ofNat_eq_natCast]
      omega

theorem parseSignedRange_intToString {lo hi v : Int} (h1 : lo ≤ v) (h2 : v ≤ hi) :
    parseSignedRange lo hi (intToString v) = .ok v := by
  unfold parseSignedRange
  rw [parseIntChars_intToString]
  show rangeCheckSigned lo hi v = .ok v
  unfold rangeCheckSigned
  rw [if_neg (by omega), if_neg (by omega)]

theorem parseUnsignedRange_natToString {hi n : Nat} (h : n ≤ hi) :
    parseUnsignedRange hi (natToString n) = .ok n := by
  unfold parseUnsignedRange
  rw [parseUnsignedChars_natToString]
  show rangeCheckUnsigned hi n = .ok n
  unfold rangeCheckUnsigned
  rw [if_neg (by omega)]

theorem stripLeadingDash_cons (c : Char) (rest : List Char) :
    stripLeadingDash (c :: rest) =
      if c = '-' then (true, rest) else (false, c :: rest) := rfl

theorem expectDash_cons (c : Char) (rest : List Char) :
    expectDash (c :: rest) = if c = '-' then some rest else none := rfl

theorem parseNaiveDateStr_all_digits (s : String)
    (hne : s.data ≠ []) (hdig : ∀ c ∈ s.data, c.isDigit = true) :
    parseNaiveDateStr s = none := by
  have hstrip : stripLeadingDash s.data = (false, s.data) := by
    rcases hc : s.data with _ | ⟨c, rest⟩
    · exact absurd hc hne
    · have hcdig : c.isDigit = true := hdig c (by rw [hc]; simp)
      rw [stripLeadingDash_cons, if_neg (isDigit_ne_minus hcdig)]
  have hdrop : s.data.dropWhile Char.isDigit = [] :=
    List.dropWhile_eq_nil_iff.mpr hdig
  have htake : (s.data.takeWhile Char.isDigit).isEmpty = false := by
    rw [List.takeWhile_eq_self_iff.mpr fun c hc => hdig c hc]
    simpa [List.isEmpty_iff] using hne
  unfold parseNaiveDateStr
  rw [hstrip]
  simp only [hdrop, htake, expectDash]
  rfl

/-- The wire encoding of any `BindingValue::Date` is rejected by the
`NaiveDate` decoder: the encoding is a signed epoch-milliseconds numeral,
the decoder wants a dashed calendar string. -/
theorem parseNaiveDateStr_dateWireString (d : NaiveDate) :
    parseNaiveDateStr (dateWireString d) = none := by
  unfold dateWireString intToString
  by_cases hv : dateMidnightMillis d < 0
  · rw [if_pos hv]
    set n := (dateMidnightMillis d).natAbs
    have hstrip : stripLeadingDash ('-' :: (natToString n).data) =
        (true, (natToString n).data) := by
      rw [stripLeadingDash_cons, if_pos rfl]
    have hdrop : (natToString n).data.dropWhile Char.isDigit = [] :=
      List.dropWhile_eq_nil_iff.mpr (natToString_data_digits n)
    have htake : ((natToString n).data.takeWhile Char.isDigit).isEmpty = false := by
      rw [List.takeWhile_eq_self_iff.mpr fun c hc => natToString_data_digits n c hc]
      simpa [List.isEmpty_iff] using natToString_data_ne_nil n
    show parseNaiveDateStr ⟨'-' :: (natToString n).data⟩ = none
    unfold parseNaiveDateStr
    show (let (neg, cs0) := stripLeadingDash ('-' :: (natToString n).data); _) = none
    rw [hstrip]
    simp only [hdrop, htake, expectDash]
    rfl
  · rw [if_neg hv]
    exact parseNaiveDateStr_all_digits _ (natToString_data_ne_nil _)
      (natToString_data_digits _)

/-! ### Claim theorems -/

/-- C10: in the eager decoder over non-nullable string cells, decoding a
cell into an optional field returns `None` exactly when the raw cell
string is the literal "NULL"; any other raw string is decoded by the
inner instance and wrapped in `Some` — so a genuine text cell whose
content is "NULL" decodes to `None` rather than `Some "NULL"`. -/
theorem optional_field_null_literal {ε α : Type} (inner : String → Except ε α)
    (value : String) :
    (deserializeOptionFromStr inner value = .ok none ↔ value = "NULL")
    ∧ (value ≠ "NULL" →
        deserializeOptionFromStr inner value = (inner value).map some)
    ∧ deserializeOptionFromStr stringFromStr "NULL" = .ok none := by
  refine ⟨?_, ?_, rfl⟩
  · unfold deserializeOptionFromStr
    by_cases h : value = "NULL"
    · simp [h]
    · rw [if_neg h]
      constructor
      · intro hmap
        cases hiv : inner value with
        | error e => rw [hiv] at hmap; cases hmap
        | ok a => rw [hiv] at hmap; cases hmap
      · intro hv; exact absurd hv h
  · intro h
    unfold deserializeOptionFromStr
    rw [if_neg h]

/-- Witness for C10 at a concrete non-NULL cell. -/
theorem optional_field_null_literal_witness :
    "x" ≠ "NULL" ∧
      deserializeOptionFromStr stringFromStr "x" = (stringFromStr "x").map some :=
  ⟨by decide, (optional_field_null_literal stringFromStr "x").2.1 (by decide)⟩

/-- C5: pushing statements via `add_sql A`, `add_multiple_sql 3 B`,
`add_sql C` and finishing yields the `MULTI_STATEMENT_COUNT` parameter
`statements.len() + additional_statements_count = 1 + 3 + 1 = 5` and the
concatenated statement equal to the three literals joined by single
spaces, in push order. -/
theorem multi_statement_count_and_concatenation (a b c : String) :
    getStatement (addSql (addMultipleSql (addSql emptyMultipleSQLData a) 3 b) c)
      = (a ++ " " ++ b ++ " " ++ c, 5) := by
  show (joinSpace [a, b, c], 3 + 2) = _
  rw [Prod.mk.injEq]
  refine ⟨?_, rfl⟩
  show a ++ " " ++ (b ++ " " ++ c) = a ++ " " ++ b ++ " " ++ c
  rw [← String.append_assoc, ← String.append_assoc]

/-- C8: decoding the row `["3", null]` into
`{client_id: i64, name: Option<String>}` yields `client_id = 3` and
`name = None`; decoding `["abc", "x"]` into the same shape yields a
field-decode error naming `client_id`, carrying the raw value "abc" and
the underlying scalar-parse failure; the failing whole-response decode
produces no partial output, only that error. -/
theorem typed_row_decode_example :
    clientRecordDecodeRow [some "3", none] = some (.ok ⟨3, none⟩)
    ∧ clientRecordDecodeRow [some "abc", some "x"]
        = some (.error (.clientId (some "abc") (.intParse .invalidDigit)))
    ∧ clientRecordDeserializeRows [[some "abc", some "x"], [some "3", none]]
        = some (.error (.clientId (some "abc") (.intParse .invalidDigit))) := by
  decide

theorem completeAux_cons (net : StatementHandle → Except TransportError HttpResponse)
    (h : StatementHandle) (rest : List StatementHandle) (i : Nat) :
    completeAux net (h :: rest) i =
      (statementStatus h (net h) :: (completeAux net rest (i + 1)).1,
       if keepsPending (statementStatus h (net h)) then (completeAux net rest (i + 1)).2
       else i :: (completeAux net rest (i + 1)).2) := by
  rcases hs : statementStatus h (net h) with e | s
  · rcases e with st | e | e | st | e <;> simp [completeAux, hs, keepsPending]
  · rcases s with q | p <;> simp [completeAux, hs, keepsPending]

theorem completeAux_fst (net : StatementHandle → Except TransportError HttpResponse)
    (hs : List StatementHandle) (i : Nat) :
    (completeAux net hs i).1 = hs.map (fun h => statementStatus h (net h)) := by
  induction hs generalizing i with
  | nil => rfl
  | cons h rest ih =>
    rw [completeAux_cons]
    simp [ih]

theorem completeAux_snd_ge (net : StatementHandle → Except TransportError HttpResponse)
    (hs : List StatementHandle) (i : Nat) :
    ∀ j ∈ (completeAux net hs i).2, i ≤ j := by
  induction hs generalizing i with
  | nil => intro j hj; simp [completeAux] at hj
  | cons h rest ih =>
    intro j hj
    rw [completeAux_cons] at hj
    rcases hk : keepsPending (statementStatus h (net h)) with _ | _
    · rw [hk, if_neg (by simp)] at hj
      rcases List.mem_cons.mp hj with rfl | hj2
      · exact Nat.le_refl j
      · exact Nat.le_of_succ_le (ih (i + 1) j hj2)
    · rw [hk, if_pos rfl] at hj
      exact Nat.le_of_succ_le (ih (i + 1) j hj)

theorem contains_eq_false_of_lt (tr : List Nat) (i : Nat) (h : ∀ j ∈ tr, i < j) :
    tr.contains i = false := by
  induction tr with
  | nil => rfl
  | cons t rest ih =>
    have ht : i < t := h t (by simp)
    have hrest : ∀ j ∈ rest, i < j := fun j hj => h j (by simp [hj])
    simp only [List.contains_cons, ih hrest, Bool.or_false]
    simpa using Nat.ne_of_lt ht

theorem retainFrom_cons_lt (tr : List Nat) (x : Nat) (hs : List StatementHandle)
    (j : Nat) (hx : x < j) :
    retainFrom (x :: tr) hs j = retainFrom tr hs j := by
  induction hs generalizing j with
  | nil => rfl
  | cons h rest ih =>
    have hne : (j == x) = false := by simpa using Nat.ne_of_gt hx
    rw [retainFrom, retainFrom]
    simp only [List.contains_cons, hne, Bool.false_or]
    rw [ih (j + 1) (Nat.lt_succ_of_lt hx)]

theorem retainFrom_completeAux (net : StatementHandle → Except TransportError HttpResponse)
    (hs : List StatementHandle) (i : Nat) :
    retainFrom (completeAux net hs i).2 hs i =
      hs.filter (fun h => keepsPending (statementStatus h (net h))) := by
  induction hs generalizing i with
  | nil => rfl
  | cons h rest ih =>
    rw [completeAux_cons]
    rcases hk : keepsPending (statementStatus h (net h)) with _ | _
    · rw [if_neg (by simp)]
      rw [retainFrom]
      have hcontains : ((i : Nat) :: (completeAux net rest (i + 1)).2).contains i = true := by
        simp [List.contains_cons]
      rw [hcontains, if_pos rfl,
        retainFrom_cons_lt _ i rest (i + 1) (Nat.lt_succ_self i), ih (i + 1)]
      rw [List.filter_cons_of_neg (by simp [hk])]
    · rw [if_pos rfl]
      rw [retainFrom]
      have hcontains : ((completeAux net rest (i + 1)).2).contains i = false :=
        contains_eq_false_of_lt _ i
          (fun j hj => Nat.lt_of_succ_le (completeAux_snd_ge net rest (i + 1) j hj))
      rw [hcontains, if_neg (by simp), ih (i + 1)]
      rw [List.filter_cons_of_pos (by simp [hk])]

theorem complete_fst (net : StatementHandle → Except TransportError HttpResponse)
    (hs : List StatementHandle) :
    (complete net hs).1 = hs.map (fun h => statementStatus h (net h)) :=
  completeAux_fst net hs 0

theorem complete_snd (net : StatementHandle → Except TransportError HttpResponse)
    (hs : List StatementHandle) :
    (complete net hs).2 = hs.filter (fun h => keepsPending (statementStatus h (net h))) :=
  retainFrom_completeAux net hs 0

theorem statementStatus_ok_def (h : StatementHandle) (r : HttpResponse) :
    statementStatus h (.ok r) =
      (if r.status = 200 then .ok (.parse ⟨h, r⟩)
       else if r.status = 422 then
         match r.body.asQueryFailure with
         | .ok e => .error (.query e)
         | .error e => .error (.decode e)
       else if r.status = 408 ∨ r.status = 202 then
         match r.body.asQueryStatus with
         | .ok q => .ok (.status q)
         | .error e => .error (.decode e)
       else if r.status = 429 ∨ r.status = 503 ∨ r.status = 504 then
         .error (.tooManyRequests r.status)
       else .error (.unknown r.status)) := rfl

theorem statementStatus_rate_limited (h : StatementHandle)
    (r : HttpResponse) (hst : r.status = 429 ∨ r.status = 503 ∨ r.status = 504) :
    statementStatus h (.ok r) = .error (.tooManyRequests r.status) := by
  rw [statementStatus_ok_def]
  rcases hst with hst | hst | hst <;>
    rw [if_neg (by omega), if_neg (by omega), if_neg (by omega),
      if_pos (by omega)]

/-- C2: in every drain round of `complete`, a handle whose poll is
rate-limited (429, 503 or 504) stays in the pending set, while a parsed
success, a terminal service failure or any other error removes the
handle; the handles are polled in their current pending order, the
survivors keep their relative order (the new pending set is the in-order
filter of the old one), the round is repeatable (a second round over the
surviving set with the same poll outcomes changes nothing), and
`are_all_complete` holds exactly when the pending set has emptied. -/
theorem batch_drain_round (net : StatementHandle → Except TransportError HttpResponse)
    (hs : List StatementHandle) :
    (complete net hs).1 = hs.map (fun h => statementStatus h (net h))
    ∧ (complete net hs).2 =
        hs.filter (fun h => keepsPending (statementStatus h (net h)))
    ∧ (complete net hs).2.Sublist hs
    ∧ (∀ h ∈ hs, ∀ r, net h = .ok r →
        (r.status = 429 ∨ r.status = 503 ∨ r.status = 504) →
        h ∈ (complete net hs).2)
    ∧ (∀ h ∈ hs, ∀ p, statementStatus h (net h) = .ok (.parse p) →
        h ∉ (complete net hs).2)
    ∧ (∀ h ∈ hs, ∀ e, statementStatus h (net h) = .error e →
        (∀ st, e ≠ .tooManyRequests st) → h ∉ (complete net hs).2)
    ∧ (complete net (complete net hs).2).2 = (complete net hs).2
    ∧ (areAllComplete (complete net hs).2 = true ↔ (complete net hs).2 = []) := by
  refine ⟨complete_fst net hs, complete_snd net hs, ?_, ?_, ?_, ?_, ?_, ?_⟩
  · rw [complete_snd]
    exact List.filter_sublist hs
  · intro h hmem r hr hst
    rw [complete_snd, List.mem_filter]
    refine ⟨hmem, ?_⟩
    rw [hr, statementStatus_rate_limited h r hst]
    rfl
  · intro h hmem p hp
    rw [complete_snd, List.mem_filter]
    rintro ⟨-, hkeep⟩
    rw [hp] at hkeep
    cases hkeep
  · intro h hmem e he hne
    rw [complete_snd, List.mem_filter]
    rintro ⟨-, hkeep⟩
    rw [he] at hkeep
    rcases e with st | e2 | e2 | st | e2
    · exact hne st rfl
    all_goals cases hkeep
  · rw [complete_snd, complete_snd, List.filter_filter]
    congr 1
    funext h
    exact Bool.and_self _
  · rw [areAllComplete, List.isEmpty_iff]

/-- Witness for C2: in the drain fixture the rate-limited handle H2
survives the round. -/
theorem batch_drain_round_witness :
    (⟨"handle-2"⟩ : StatementHandle) ∈ (complete drainNet drainHandles).2 :=
  (batch_drain_round drainNet drainHandles).2.2.2.1 ⟨"handle-2"⟩ (by decide)
    ⟨429, body429⟩ (by decide) (Or.inl rfl)

/-- C1 counterexample: in the drain round where H1 polls 200, H2 polls
429 and H3 polls 422, the iterator returned by `complete` has an entry
for every polled handle — three entries, the second being the retryable
rate-limited error produced for H2 — refuting the claim that H2 yields
no entry. -/
theorem drain_rate_limited_entry_exists :
    (complete drainNet drainHandles).1.length = 3
    ∧ (complete drainNet drainHandles).1[1]? =
        some (.error (.tooManyRequests 429)) := by
  decide

/-- C1 (amended): in that drain round the pending set left behind is
exactly `{H2}`; H1 yields a completed entry whose body parses into a
result, H3 yields the terminal service-failure error, and H2 yields a
retryable rate-limited entry (rather than no entry) while remaining
pending. -/
theorem drain_round_example :
    (complete drainNet drainHandles).2 = [⟨"handle-2"⟩]
    ∧ (complete drainNet drainHandles).1 =
        [.ok (.parse ⟨⟨"handle-1"⟩, ⟨200, body200⟩⟩),
         .error (.tooManyRequests 429),
         .error (.query qfFix)]
    ∧ parseSelected rowsDeser ⟨⟨"handle-1"⟩, ⟨200, body200⟩⟩ = .ok [["3"]] := by
  decide

theorem select_ok_def {E T : Type} (host : String)
    (deser : SnowflakeSQLResponseJ → Except E (SnowflakeSQLResultM T))
    (r : HttpResponse) :
    select host deser (.ok r) =
      (if r.status = 200 then
        match r.body.asSqlResponse with
        | .error e => .error (.decode e)
        | .ok sr =>
          match deser sr with
          | .error e => .error (.deserialize e)
          | .ok res => .ok (.result res)
      else if r.status = 408 ∨ r.status = 202 then
        match r.body.asQueryStatus with
        | .error e => .error (.decode e)
        | .ok q => .ok (.status ⟨host, q⟩)
      else if r.status = 422 then
        match r.body.asQueryFailure with
        | .error e => .error (.decode e)
        | .ok f => .error (.query f)
      else .error (.unknown r.status)) := rfl

/-- C3: `select` classifies the submission outcome by HTTP status exactly
as: 200 parses the body as a query response and decodes it into typed
rows; 202 or 408 parses the body as a `QueryStatus` and returns the
in-progress handle-bound continuation; 422 parses the body as a
`QueryFailureStatus` and returns it as a terminal error carrying the
service's diagnostics; every other status code becomes the terminal
unknown-status error carrying that raw code, with no retry path. -/
theorem select_status_classification {E T : Type} (host : String)
    (deser : SnowflakeSQLResponseJ → Except E (SnowflakeSQLResultM T))
    (r : HttpResponse) :
    (∀ sr res, r.status = 200 → r.body.asSqlResponse = .ok sr → deser sr = .ok res →
      select host deser (.ok r) = .ok (.result res))
    ∧ (∀ q, (r.status = 202 ∨ r.status = 408) → r.body.asQueryStatus = .ok q →
      select host deser (.ok r) = .ok (.status ⟨host, q⟩))
    ∧ (∀ f, r.status = 422 → r.body.asQueryFailure = .ok f →
      select host deser (.ok r) = .error (.query f))
    ∧ (r.status ≠ 200 → r.status ≠ 202 → r.status ≠ 408 → r.status ≠ 422 →
      select host deser (.ok r) = .error (.unknown r.status)) := by
  refine ⟨?_, ?_, ?_, ?_⟩
  · intro sr res h200 hsr hdes
    rw [select_ok_def, if_pos h200]
    simp only [hsr, hdes]
  · intro q hst hq
    rw [select_ok_def, if_neg (by omega),
      if_pos (by rcases hst with h | h; exacts [Or.inr h, Or.inl h])]
    simp only [hq]
  · intro f h422 hf
    rw [select_ok_def, if_neg (by omega), if_neg (by omega), if_pos h422]
    simp only [hf]
  · intro h200 h202 h408 h422
    rw [select_ok_def, if_neg h200, if_neg (by omega), if_neg h422]

/-- Witness for C3: a 500 response classifies as the unknown-status error. -/
theorem select_status_classification_witness :
    select "host/" rowsDeserR (.ok ⟨500, body429⟩) = .error (.unknown 500) :=
  (select_status_classification "host/" rowsDeserR ⟨500, body429⟩).2.2.2
    (by decide) (by decide) (by decide) (by decide)

theorem map_getD_range {α : Type} (l : List α) (d : α) :
    (List.range l.length).map (fun k => l.getD k d) = l := by
  induction l with
  | nil => rfl
  | cons x xs ih =>
    rw [List.length_cons, List.range_succ_eq_map, List.map_cons, List.map_map]
    rw [show ((fun k => (x :: xs).getD k d) ∘ (fun i => i + 1)) =
      (fun k => xs.getD k d) from funext fun k => List.getD_cons_succ ..]
    rw [ih, List.getD_cons_zero]

theorem fetchLoop_ok (fetch : Nat → Except String PartitionM) (parts : Nat → PartitionM) :
    ∀ (is : List Nat) (acc : List (List (Option String))),
    (∀ i ∈ is, fetch i = .ok (parts i)) →
    fetchLoop fetch is acc = .ok (acc ++ (is.map (fun i => (parts i).data)).flatten) := by
  intro is
  induction is with
  | nil =>
    intro acc _
    simp [fetchLoop]
  | cons i rest ih =>
    intro acc hok
    have hi : fetch i = .ok (parts i) := hok i (by simp)
    simp only [fetchLoop, hi]
    rw [ih (acc ++ (parts i).data) (fun j hj => hok j (by simp [hj]))]
    simp [List.append_assoc]

theorem fetchLoop_error (fetch : Nat → Except String PartitionM) (i : Nat) (e : String) :
    ∀ (is : List Nat) (acc : List (List (Option String))),
    i ∈ is → fetch i = .error e →
    ∃ e2, fetchLoop fetch is acc = .error e2 := by
  intro is
  induction is with
  | nil =>
    intro acc h
    simp at h
  | cons j rest ih =>
    intro acc hmem he
    cases hj : fetch j with
    | error e2 => exact ⟨e2, by simp [fetchLoop, hj]⟩
    | ok p =>
      rcases List.mem_cons.mp hmem with rfl | hmem2
      · rw [he] at hj; simp at hj
      · simpa [fetchLoop, hj] using ih (acc ++ p.data) hmem2 he

/-- C4: when the response declares more than one partition, partitions
`1..len` are fetched in increasing index order and appended, in that
order, to the accumulated data; when every fetched partition returns its
declared `rowCount` rows the merged row count equals the sum of all
declared row counts, and the failure of any single partition fetch aborts
the whole merge with an error, so no partial result is returned. -/
theorem partition_assembly (fetch : Nat → Except String PartitionM)
    (r : SnowflakeSqlResponseP) (p0 : PartitionInfoM) (ptail : List PartitionInfoM)
    (hp : r.resultSetMetaData.partitionInfo = p0 :: ptail) :
    (∀ parts : Nat → PartitionM,
      (∀ k, k < ptail.length → fetch (k + 1) = .ok (parts (k + 1))) →
      (∀ k, k < ptail.length →
          (parts (k + 1)).data.length = (ptail.getD k ⟨0, 0⟩).rowCount) →
      r.data.length = p0.rowCount →
      fetchAndMergePartitions fetch r =
          .ok (r.data ++
            ((List.range ptail.length).map (fun k => (parts (k + 1)).data)).flatten)
        ∧ (r.data ++
            ((List.range ptail.length).map (fun k => (parts (k + 1)).data)).flatten).length
          = sumRowCounts (r.resultSetMetaData.partitionInfo))
    ∧ (∀ i e, i ∈ (List.range r.resultSetMetaData.partitionInfo.length).drop 1 →
        fetch i = .error e →
        ∃ e2, fetchAndMergePartitions fetch r = .error e2) := by
  have hidx : (List.range r.resultSetMetaData.partitionInfo.length).drop 1 =
      (List.range ptail.length).map (fun i => i + 1) := by
    rw [hp, List.length_cons, List.range_succ_eq_map, List.drop_one, List.tail_cons]
  constructor
  · intro parts hfetch hcount h0
    have hok : ∀ i ∈ (List.range ptail.length).map (fun i => i + 1),
        fetch i = .ok (parts i) := by
      intro i hi
      rw [List.mem_map] at hi
      obtain ⟨k, hk, rfl⟩ := hi
      exact hfetch k (List.mem_range.mp hk)
    have hmerge : fetchAndMergePartitions fetch r =
        .ok (r.data ++
          ((List.range ptail.length).map (fun k => (parts (k + 1)).data)).flatten) := by
      unfold fetchAndMergePartitions
      rw [hidx, fetchLoop_ok fetch parts _ r.data hok, List.map_map]
      rfl
    refine ⟨hmerge, ?_⟩
    rw [List.length_append, List.length_flatten, List.map_map]
    have hmapeq : ((List.range ptail.length).map
        (List.length ∘ fun k => (parts (k + 1)).data)) =
        ptail.map (fun p => p.rowCount) := by
      have h1 : ((List.range ptail.length).map
          (List.length ∘ fun k => (parts (k + 1)).data)) =
          (List.range ptail.length).map
            (fun k => (ptail.getD k ⟨0, 0⟩).rowCount) :=
        List.map_congr_left fun k hk => hcount k (List.mem_range.mp hk)
      rw [h1, show (fun k => (ptail.getD k ⟨0, 0⟩).rowCount) =
          (fun p : PartitionInfoM => p.rowCount) ∘ (fun k => ptail.getD k ⟨0, 0⟩)
          from rfl, ← List.map_map, map_getD_range]
    rw [hmapeq, h0, hp]
    unfold sumRowCounts
    rw [List.map_cons, List.sum_cons]
  · intro i e hmem he
    unfold fetchAndMergePartitions
    exact fetchLoop_error fetch i e _ r.data hmem he

/-- Witness for C4 on the two-partition fixture: the merge succeeds and
the merged row count is the declared total. -/
theorem partition_assembly_witness :
    fetchAndMergePartitions fetchFix respFixP =
        .ok (respFixP.data ++
          ((List.range 1).map (fun k => (partsFix (k + 1)).data)).flatten)
    ∧ (respFixP.data ++
        ((List.range 1).map (fun k => (partsFix (k + 1)).data)).flatten).length
      = sumRowCounts respFixP.resultSetMetaData.partitionInfo :=
  (partition_assembly fetchFix respFixP ⟨1, 10⟩ [⟨2, 20⟩] rfl).1 partsFix
    (fun k hk => by
      have hk1 : k = 0 := by simpa [Nat.lt_one_iff] using hk
      subst hk1
      decide)
    (fun k hk => by
      have hk1 : k = 0 := by simpa [Nat.lt_one_iff] using hk
      subst hk1
      decide)
    rfl

/-- C9 counterexample: on a parsed response whose metadata names two
columns while the data row holds a single cell, `LazyRow::get` of the
second column panics (out-of-bounds `Vec` indexing) instead of returning
one of the three per-access errors the claim allows. -/
theorem lazy_get_short_row_panics :
    lazyRowGet jsonDecId (buildNameIndexMap [rtClientId, rtClientName])
      ["3"] "CLIENT_NAME" = .panicked := by
  decide

/-- C9 (amended): every `LazyRow::get_from_index` access returns exactly
one of the decoded value, an out-of-range-index error, or a parse error
for that cell, and never panics; `LazyRow::get` returns the
unknown-column-name error for unmapped names and the value or a parse
error whenever the mapped index is within the row, but it panics — rather
than failing with an error — whenever the mapped index is at or beyond
the row's length, as happens when a data row holds fewer cells than the
metadata names columns. -/
theorem lazy_single_cell_access {T : Type} (jsonDec : String → Except String T)
    (nameIndexMap : List (String × Nat)) (data : List String) :
    (∀ columnIndex,
      (∃ t, lazyRowGetFromIndex jsonDec data columnIndex = .ok t)
      ∨ (∃ e, lazyRowGetFromIndex jsonDec data columnIndex = .deserializeError e)
      ∨ (lazyRowGetFromIndex jsonDec data columnIndex = .invalidIndex columnIndex
          ∧ data.length ≤ columnIndex))
    ∧ (∀ columnIndex, lazyRowGetFromIndex jsonDec data columnIndex ≠ .panicked)
    ∧ (∀ columnName, lookupAssoc nameIndexMap columnName = none →
        lazyRowGet jsonDec nameIndexMap data columnName = .unknownName columnName)
    ∧ (∀ columnName index, lookupAssoc nameIndexMap columnName = some index →
        index < data.length →
        ((∃ t, lazyRowGet jsonDec nameIndexMap data columnName = .ok t)
          ∨ ∃ e, lazyRowGet jsonDec nameIndexMap data columnName = .deserializeError e))
    ∧ (∀ columnName index, lookupAssoc nameIndexMap columnName = some index →
        data.length ≤ index →
        lazyRowGet jsonDec nameIndexMap data columnName = .panicked) := by
  refine ⟨?_, ?_, ?_, ?_, ?_⟩
  · intro columnIndex
    cases hcell : data[columnIndex]? with
    | none =>
      refine Or.inr (Or.inr ⟨?_, ?_⟩)
      · simp [lazyRowGetFromIndex, hcell]
      · exact List.getElem?_eq_none_iff.mp hcell
    | some v =>
      cases hdec : jsonDec v with
      | ok t => exact Or.inl ⟨t, by simp [lazyRowGetFromIndex, hcell, hdec]⟩
      | error e => exact Or.inr (Or.inl ⟨e, by simp [lazyRowGetFromIndex, hcell, hdec]⟩)
  · intro columnIndex
    cases hcell : data[columnIndex]? with
    | none => simp [lazyRowGetFromIndex, hcell]
    | some v =>
      cases hdec : jsonDec v with
      | ok t => simp [lazyRowGetFromIndex, hcell, hdec]
      | error e => simp [lazyRowGetFromIndex, hcell, hdec]
  · intro columnName hname
    simp [lazyRowGet, hname]
  · intro columnName index hname hlt
    have hcell : data[index]? = some data[index] := List.getElem?_eq_getElem hlt
    cases hdec : jsonDec data[index] with
    | ok t => exact Or.inl ⟨t, by simp [lazyRowGet, hname, hcell, hdec]⟩
    | error e => exact Or.inr ⟨e, by simp [lazyRowGet, hname, hcell, hdec]⟩
  · intro columnName index hname hge
    have hcell : data[index]? = none := List.getElem?_eq_none_iff.mpr hge
    simp [lazyRowGet, hname, hcell]

/-- Witness for C9 on the two-column fixture: a known, in-bounds column
decodes to its value. -/
theorem lazy_single_cell_access_witness :
    (∃ t, lazyRowGet jsonDecId (buildNameIndexMap [rtClientId, rtClientName])
        ["3", "Parkando"] "CLIENT_NAME" = .ok t)
      ∨ ∃ e, lazyRowGet jsonDecId (buildNameIndexMap [rtClientId, rtClientName])
        ["3", "Parkando"] "CLIENT_NAME" = .deserializeError e :=
  (lazy_single_cell_access jsonDecId (buildNameIndexMap [rtClientId, rtClientName])
    ["3", "Parkando"]).2.2.2.1 "CLIENT_NAME" 1 (by decide) (by decide)

/-- C6 counterexample: the date round-trip fails on the code — the wire
encoding of 1970-01-02 is the epoch-milliseconds numeral "86400000",
which the `NaiveDate` decoder (a `%Y-%m-%d` calendar parser) rejects, so
`decode (encode v)` is not `v`. -/
theorem date_roundtrip_fails :
    dateWireString ⟨1970, 1, 2⟩ = "86400000"
    ∧ parseNaiveDateStr (dateWireString ⟨1970, 1, 2⟩) = none := by
  constructor
  · decide
  · exact parseNaiveDateStr_dateWireString ⟨1970, 1, 2⟩

/-- C6 (amended): `decode (encode v) = v` holds for the scalar kinds
whose decoder consumes the same textual form the encoder emits — booleans
(true/false literals), every signed and unsigned integer width (decimal
numerals within the width's bounds), and text (the identity) — but fails
for the temporal kinds: the wire encoding of every date is an
epoch-numeral the calendar-format date decoder rejects, and the time,
char and decimal kinds have no `DeserializeFromStr` decoder at all. -/
theorem scalar_roundtrip :
    (∀ b, parseBoolStr (boolToString b) = .ok b)
    ∧ (∀ lo hi v : Int, lo ≤ v → v ≤ hi →
        parseSignedRange lo hi (intToString v) = .ok v)
    ∧ (∀ hi n : Nat, n ≤ hi → parseUnsignedRange hi (natToString n) = .ok n)
    ∧ (∀ s, stringFromStr s = .ok s)
    ∧ (∀ d : NaiveDate, parseNaiveDateStr (dateWireString d) = none) := by
  refine ⟨?_, ?_, ?_, fun _ => rfl, parseNaiveDateStr_dateWireString⟩
  · intro b
    cases b <;> decide
  · intro lo hi v h1 h2
    exact parseSignedRange_intToString h1 h2
  · intro hi n h
    exact parseUnsignedRange_natToString h

/-- Witness for C6 at the `i64` and `u64` bounds: a negative value and a
large natural both round-trip. -/
theorem scalar_roundtrip_witness :
    parseSignedRange i64MinVal i64MaxVal (intToString (-42)) = .ok (-42)
    ∧ parseUnsignedRange u64MaxVal (natToString 69) = .ok 69 :=
  ⟨(scalar_roundtrip).2.1 i64MinVal i64MaxVal (-42) (by decide) (by decide),
   (scalar_roundtrip).2.2.1 u64MaxVal 69 (by decide)⟩

/-- C7 counterexample: the time-of-day encoding is not a fractional-
minutes decimal — for 00:01:00 the code computes `nanoseconds / 60`,
which is `10^9`, while one minute expressed in fractional minutes is 1. -/
theorem time_encoding_not_fractional_minutes :
    timeWireValue ⟨0, 1, 0, 0⟩ = 1000000000
    ∧ specTimeFractionalMinutes ⟨0, 1, 0, 0⟩ = 1
    ∧ timeWireValue ⟨0, 1, 0, 0⟩ ≠ specTimeFractionalMinutes ⟨0, 1, 0, 0⟩ := by
  refine ⟨?_, ?_, ?_⟩ <;>
    norm_num [timeWireValue, specTimeFractionalMinutes, nanosOfDay, secondsOfDay]

/-- C7 (amended): every `BindingValue` variant maps to exactly one
`BindingType` tag — boolean to BOOLEAN, all signed and unsigned integer
widths to FIXED, floats and decimals to REAL, char and string to TEXT,
date-time to TIMESTAMP_NTZ, date to DATE, time to TIME — and to exactly
one canonical string encoding, with no failing conversion; a date-time
encodes as nanoseconds-since-epoch, a plain date as
milliseconds-since-epoch of its midnight, and a time-of-day as the
decimal quotient of its nanoseconds-since-midnight by sixty (not as
fractional minutes). -/
theorem binding_tag_and_encoding (floatStr : RustF32 → String)
    (doubleStr : RustF64 → String) (decimalStr : RustDecimal → String)
    (ratDecimalStr : ℚ → String) :
    (∀ v, bindingTypeOfValue (.bool v) = .bool)
    ∧ (∀ v, bindingTypeOfValue (.byte v) = .fixed)
    ∧ (∀ v, bindingTypeOfValue (.smallInt v) = .fixed)
    ∧ (∀ v, bindingTypeOfValue (.int v) = .fixed)
    ∧ (∀ v, bindingTypeOfValue (.bigInt v) = .fixed)
    ∧ (∀ v, bindingTypeOfValue (.isize v) = .fixed)
    ∧ (∀ v, bindingTypeOfValue (.ubyte v) = .fixed)
    ∧ (∀ v, bindingTypeOfValue (.smallUInt v) = .fixed)
    ∧ (∀ v, bindingTypeOfValue (.uint v) = .fixed)
    ∧ (∀ v, bindingTypeOfValue (.bigUInt v) = .fixed)
    ∧ (∀ v, bindingTypeOfValue (.usize v) = .fixed)
    ∧ (∀ v, bindingTypeOfValue (.float v) = .real)
    ∧ (∀ v, bindingTypeOfValue (.double v) = .real)
    ∧ (∀ v, bindingTypeOfValue (.decimal v) = .real)
    ∧ (∀ v, bindingTypeOfValue (.char v) = .text)
    ∧ (∀ v, bindingTypeOfValue (.string v) = .text)
    ∧ (∀ v, bindingTypeOfValue (.dateTime v) = .dateTime)
    ∧ (∀ v, bindingTypeOfValue (.date v) = .date)
    ∧ (∀ v, bindingTypeOfValue (.time v) = .time)
    ∧ bindingTypeToString .bool = "BOOLEAN"
    ∧ bindingTypeToString .fixed = "FIXED"
    ∧ bindingTypeToString .real = "REAL"
    ∧ bindingTypeToString .text = "TEXT"
    ∧ bindingTypeToString .dateTime = "TIMESTAMP_NTZ"
    ∧ bindingTypeToString .date = "DATE"
    ∧ bindingTypeToString .time = "TIME"
    ∧ (∀ dt, bindingValueToString floatStr doubleStr decimalStr ratDecimalStr
        (.dateTime dt) = intToString (timestampNanos dt))
    ∧ (∀ d, bindingValueToString floatStr doubleStr decimalStr ratDecimalStr
        (.date d) = intToString (dateMidnightMillis d))
    ∧ (∀ t, bindingValueToString floatStr doubleStr decimalStr ratDecimalStr
        (.time t) = ratDecimalStr (timeWireValue t))
    ∧ (∀ t, timeWireValue t * 60 = (nanosOfDay t : ℚ)) := by
  refine ⟨?_, ?_, ?_, ?_, ?_, ?_, ?_, ?_, ?_, ?_, ?_, ?_, ?_, ?_, ?_, ?_, ?_, ?_,
    ?_, ?_, ?_, ?_, ?_, ?_, ?_, ?_, ?_, ?_, ?_, ?_⟩
  all_goals try exact fun _ => rfl
  all_goals try rfl
  intro t
  unfold timeWireValue
  rw [div_mul_cancel₀]
  norm_num

end Snowflake
